import Mathlib

/-!
Shallow embedding of `src/pythonfixerv1.py` (the "ScriptFixer" pipeline).

The program is sequential glue over a filesystem, a subprocess runner and an
LLM completion backend.  We embed it as pure Lean functions:

* the filesystem is an explicit association list from paths to file contents
  (`FS`); `os.path.exists` / `open(..).read()` / writes become `FS.existsPath`,
  `FS.read?`, `FS.write`;
* the child-process run and the two network backends are oracles: their
  outcomes (`RunOutcome`, the `Except` fields of `FixConfig`) are inputs to the
  embedded functions, which then follow the source's control flow exactly;
* Python's unbounded `while True` search loop in `backup_and_version_script`
  is embedded with an explicit fuel parameter, `none` meaning the loop did not
  finish within the given fuel;
* machine details: a normal process exit code is a `Nat` (POSIX exit codes are
  0..255; the 255 bound appears as a hypothesis where relevant), the status
  returned by `run_script` is an `Int` (the source returns `-1` on timeout and
  on launch failure); the constant sampling temperature `0.1` is the exact
  rational `1/10`.
-/

/-! ### Decimal rendering of a natural number

Python's f-string `f"{base}_v{i}{ext}"` renders the index `i` in decimal,
most significant digit first.  `natDecimal` is that rendering. -/

/-- The character for a single decimal digit (`d < 10`). -/
def digitChar : Nat → Char
  | 0 => '0' | 1 => '1' | 2 => '2' | 3 => '3' | 4 => '4'
  | 5 => '5' | 6 => '6' | 7 => '7' | 8 => '8' | _ => '9'

/-- Numeric value of a digit character. -/
def digitVal (c : Char) : Nat := c.toNat - 48

/-- Core of the decimal rendering, structurally recursive on a fuel bound
(any `fuel > n` is enough, in the style of core's `Nat.toDigitsCore`). -/
def natDecimalCore : Nat → Nat → List Char
  | 0, _ => []
  | fuel + 1, n =>
    if n < 10 then [digitChar n]
    else natDecimalCore fuel (n / 10) ++ [digitChar (n % 10)]

/-- Decimal rendering of `n`, most significant digit first, no leading zeros
(for `n > 0`); this is what Python's `f"{i}"` prints. -/
def natDecimal (n : Nat) : List Char := natDecimalCore (n + 1) n

/-- Value of a digit string, most significant digit first. -/
def decValue : List Char → Nat
  | [] => 0
  | c :: cs => digitVal c * 10 ^ cs.length + decValue cs

/-! ### `os.path.splitext`

The app only ever handles bare file names (`temp_uploaded_script.py` and its
versioned siblings), so directory separators are not modelled.  Python's rule:
the extension starts at the last dot, except that a run of dots at the very
start of the name never starts an extension. -/

/-- Split a character list at its last `'.'` (the dot goes with the second
component); `none` when there is no dot. -/
def lastDotSplit : List Char → Option (List Char × List Char)
  | [] => none
  | c :: cs =>
    match lastDotSplit cs with
    | some (b, e) => some (c :: b, e)
    | none => if c = '.' then some ([], c :: cs) else none

/-- Embedding of `os.path.splitext` for bare file names. -/
def splitext (p : String) : String × String :=
  let dots := p.data.takeWhile (fun c => c = '.')
  let rest := p.data.dropWhile (fun c => c = '.')
  match lastDotSplit rest with
  | some (b, e) => (⟨dots ++ b⟩, ⟨e⟩)
  | none => (p, "")

/-! ### The filesystem model -/

/-- The filesystem: an association list from path to file content, newest
entry first.  A write (`open(path, 'w')` truncating the file) is a cons; the
newest entry for a path shadows any older one, so `read?` (which returns the
first match) sees exactly the current content of each path. -/
abbrev FS : Type := List (String × String)

def FS.existsPath (fs : FS) (p : String) : Bool :=
  fs.any (fun e => e.1 == p)

def FS.read? (fs : FS) (p : String) : Option String :=
  (fs.find? (fun e => e.1 == p)).map (fun e => e.2)

def FS.write (fs : FS) (p c : String) : FS :=
  (p, c) :: fs

/-! ### Versioned sibling paths and the search loop of `backup_and_version_script`

Source (lines 85-93):
```text
def backup_and_version_script(script_path: str) -> str:
    base, ext = os.path.splitext(script_path)
    i = 2
    while True:
        versioned_path = f"{base}_v{i}{ext}"
        if not os.path.exists(versioned_path):
            shutil.copy(script_path, versioned_path)
            return versioned_path
        i += 1
```
The unbounded `while True` loop is embedded with an explicit fuel argument;
`none` means the loop did not return within the given fuel. -/

/-- The versioned sibling path `f"{base}_v{i}{ext}"`. -/
def versionedPath (base ext : String) (i : Nat) : String :=
  base ++ "_v" ++ ⟨natDecimal i⟩ ++ ext

/-- One step of the `while True` search: try indices `i, i+1, ...` until a
path does not exist, spending one unit of fuel per probe. -/
def findFreeIdx (ex : String → Bool) (base ext : String) : Nat → Nat → Option Nat
  | _, 0 => none
  | i, fuel + 1 =>
    if ex (versionedPath base ext i) then findFreeIdx ex base ext (i + 1) fuel
    else some i

/-- Embedding of `backup_and_version_script`: find the first free versioned
sibling of `script_path` starting at index 2 and copy the original file's
bytes there.  The caller always invokes it on an existing file, so the copy
reads `(fs.read? script_path).getD ""`.  `fuel` bounds the `while True` loop;
`none` models the loop not returning. -/
def backup_and_version_script (fs : FS) (script_path : String) (fuel : Nat) :
    Option (String × FS) :=
  let base := (splitext script_path).1
  let ext := (splitext script_path).2
  match findFreeIdx fs.existsPath base ext 2 fuel with
  | none => none
  | some i =>
    let versioned_path := versionedPath base ext i
    some (versioned_path, fs.write versioned_path ((fs.read? script_path).getD ""))

/-! ### `run_script` (lines 160-178)

The child process and the OS are an oracle: `RunOutcome` is what actually
happened to the launched process.  `run_script` maps it to the pair
(returned status, text ending up in the log file), following the source: the
real exit status on normal completion, `-1` after `process.kill()` on
timeout, and `-1` with the exception text written to the log when the launch
itself raised.  A normal exit code is a `Nat` (what the script passed to
`exit()`, on POSIX a value in 0..255). -/

inductive RunOutcome where
  | completed (output : String) (exitCode : Nat)
  | timedOut (flushedOutput : String)
  | launchFailure (msg : String)
  deriving DecidableEq

def run_script (outcome : RunOutcome) : Int × String :=
  match outcome with
  | .completed output exitCode => ((exitCode : Int), output)
  | .timedOut flushedOutput => (-1, flushedOutput)
  | .launchFailure msg => (-1, "Error running script: " ++ msg)

/-! ### `monitor_log_for_errors` (lines 77-82) -/

/-- Python's `str.lower()`, character by character. -/
def lowerStr (s : String) : String := ⟨s.data.map Char.toLower⟩

/-- Python's substring test `needle in s`. -/
def containsSubstr (needle s : String) : Bool := decide (needle.data <:+: s.data)

/-- Embedding of `monitor_log_for_errors`; the argument is
`fs.read? log_path`, i.e. `none` when the file does not exist and
`some content` otherwise. -/
def monitor_log_for_errors (log : Option String) : Bool :=
  match log with
  | none => false
  | some content =>
      containsSubstr "error" (lowerStr content) || containsSubstr "traceback" (lowerStr content)

/-! ### `fix_broken_script` (lines 96-157) -/

/-- Python's `str.startswith`: character-level prefix test. -/
def pyStartsWith (s pre : String) : Bool := pre.data.isPrefixOf s.data

/-- Python's `str.endswith`: character-level suffix test. -/
def pyEndsWith (s suf : String) : Bool := suf.data.isSuffixOf s.data

/-- Python's slice `s[n:]` (by code points). -/
def pyDrop (s : String) (n : Nat) : String := ⟨s.data.drop n⟩

/-- Python's slice `s[:-n]` for a string of length at least `n`. -/
def pyDropRight (s : String) (n : Nat) : String := ⟨s.data.take (s.data.length - n)⟩

/-- Python's `str.strip()`: remove leading and trailing whitespace. -/
def pyStrip (s : String) : String :=
  ⟨((s.data.dropWhile Char.isWhitespace).reverse.dropWhile Char.isWhitespace).reverse⟩

/-- The markdown-fence cleanup of `fix_broken_script` (lines 141-147):
drop a leading fence with language tag, else a bare leading fence, and then a
trailing closing fence. -/
def stripFences (s : String) : String :=
  let s1 :=
    if pyStartsWith s "```python" then pyDrop s 9
    else if pyStartsWith s "```" then pyDrop s 3
    else s
  if pyEndsWith s1 "```" then pyDropRight s1 3 else s1

/-- The completion backends are an oracle.  `agentsSuccess` is the module
flag `AGENTS_SUCCESS`, `agentHasName` is `hasattr(agent, 'name')`,
`agentResult` the outcome of `Runner.run`, `directResult` the outcome of
`client.chat.completions.create` (its `.error` means the call raised). -/
structure FixConfig where
  agentsSuccess : Bool
  agentHasName : Bool
  agentResult : Except String String
  directResult : Except String String

/-- One backend invocation, as observable from the source: the agent-framework
run, or a direct chat-completion call with its fixed model identifier and
sampling temperature. -/
inductive BackendCall where
  | agentRun
  | directCompletion (model : String) (temperature : ℚ)
  deriving DecidableEq

/-- The prompt of `fix_broken_script` (lines 100-106). -/
def buildPrompt (original_code error_log : String) : String :=
  "Fix this Python script based on the error log. Return ONLY the corrected Python code without any explanations or markdown formatting.\n\nORIGINAL SCRIPT:\n"
    ++ original_code ++ "\n\nERROR LOG:\n" ++ error_log

/-- The backend dispatch of `fix_broken_script` (lines 108-139): prefer the
agent framework when available and the handle is an agent; on any failure
from that path fall back to the direct call (model "gpt-4o", temperature
0.1); without the framework use the direct call only.  Returns the obtained
code (the direct path applies `.strip()` to the response) and the list of
backend calls made, in order. -/
def getFixedCode (cfg : FixConfig) (_prompt : String) :
    Except String String × List BackendCall :=
  if cfg.agentsSuccess && cfg.agentHasName then
    match cfg.agentResult with
    | .ok finalOutput => (.ok finalOutput, [.agentRun])
    | .error _ =>
      match cfg.directResult with
      | .ok content => (.ok (pyStrip content), [.agentRun, .directCompletion "gpt-4o" (1/10)])
      | .error e => (.error e, [.agentRun, .directCompletion "gpt-4o" (1/10)])
  else
    match cfg.directResult with
    | .ok content => (.ok (pyStrip content), [.directCompletion "gpt-4o" (1/10)])
    | .error e => (.error e, [.directCompletion "gpt-4o" (1/10)])

/-- Embedding of `fix_broken_script`.  Returns `some (returned path, new
filesystem, backend calls made, whether st.error was shown)`; the outer
`try/except` maps any raised step to the result `""` with an error report.
`none` models the versioning loop not returning within `fuel`.  Reading a
missing script raises, hence the `none` branch of `read?` also yields `""`. -/
def fix_broken_script (cfg : FixConfig) (fs : FS) (script_path error_log : String)
    (fuel : Nat) : Option (String × FS × List BackendCall × Bool) :=
  match fs.read? script_path with
  | none => some ("", fs, [], true)
  | some original_code =>
    match getFixedCode cfg (buildPrompt original_code error_log) with
    | (.error _, calls) => some ("", fs, calls, true)
    | (.ok raw, calls) =>
      let fixed_code := stripFences raw
      match backup_and_version_script fs script_path fuel with
      | none => none
      | some (new_script_path, fs1) =>
        some (new_script_path, fs1.write new_script_path (pyStrip fixed_code), calls, false)

/-! ### The orchestrator (lines 253-335) -/

inductive Outcome where
  | success
  | fixedSuccess
  | fixedFailed
  | fixGenerationFailed
  deriving DecidableEq

/-- What one session did: the first run's reported status, whether the fix
path was entered, the path `fix_broken_script` returned, the backend calls
made, whether a second run was attempted, the terminal outcome, and the final
filesystem. -/
structure PipelineTrace where
  firstStatus : Int
  fixInvoked : Bool
  fixReturnedPath : String
  backendCalls : List BackendCall
  secondRunAttempted : Bool
  outcome : Outcome
  finalFS : FS

/-- Embedding of the upload-run-inspect-fix-rerun flow of the Streamlit
block: write the upload to `temp_uploaded_script.py`, run it with the log
redirected to `agent_log.txt`, report success if the status is 0 and the log
inspector finds no marker, otherwise invoke `fix_broken_script` and, if it
returned a non-empty existing path, run that script once more and classify
the result the same way. -/
def orchestrator (cfg : FixConfig) (first second : RunOutcome)
    (uploadContent : String) (fs0 : FS) (fuel : Nat) : Option PipelineTrace :=
  let script_path := "temp_uploaded_script.py"
  let log_path := "agent_log.txt"
  let fs1 := fs0.write script_path uploadContent
  let r1 := run_script first
  let fs2 := fs1.write log_path r1.2
  if r1.1 == 0 && !(monitor_log_for_errors (fs2.read? log_path)) then
    some ⟨r1.1, false, "", [], false, .success, fs2⟩
  else
    let log_content := (fs2.read? log_path).getD ""
    match fix_broken_script cfg fs2 script_path log_content fuel with
    | none => none
    | some (fixed_path, fs3, calls, _reported) =>
      if fixed_path != "" && fs3.existsPath fixed_path then
        let r2 := run_script second
        let fs4 := fs3.write log_path r2.2
        if r2.1 == 0 && !(monitor_log_for_errors (fs4.read? log_path)) then
          some ⟨r1.1, true, fixed_path, calls, true, .fixedSuccess, fs4⟩
        else
          some ⟨r1.1, true, fixed_path, calls, true, .fixedFailed, fs4⟩
      else
        some ⟨r1.1, true, fixed_path, calls, false, .fixGenerationFailed, fs3⟩

/-- Repeated calls of `backup_and_version_script` on the same base path, each
given enough fuel for its filesystem (`fs.length + 1` probes always suffice);
returns the list of versioned paths produced in order. -/
def backupSeq (sp : String) : Nat → FS → List String
  | 0, _ => []
  | n + 1, fs =>
    match backup_and_version_script fs sp (fs.length + 1) with
    | none => []
    | some (p, fs1) => p :: backupSeq sp n fs1

theorem digitVal_digitChar {d : Nat} (h : d < 10) : digitVal (digitChar d) = d := by
  interval_cases d <;> rfl

theorem decValue_append_singleton (xs : List Char) (c : Char) :
    decValue (xs ++ [c]) = 10 * decValue xs + digitVal c := by
  induction xs with
  | nil => simp [decValue]
  | cons x xs ih =>
      simp only [List.cons_append, decValue, ih, List.append_eq, List.length_append,
        List.length_cons, List.length_nil]
      ring

theorem decValue_natDecimalCore :
    ∀ (fuel n : Nat), n < fuel → decValue (natDecimalCore fuel n) = n := by
  intro fuel
  induction fuel with
  | zero => intro n h; omega
  | succ fuel ih =>
      intro n h
      rw [natDecimalCore]
      split
      · next hlt => simp [decValue, digitVal_digitChar hlt]
      · next hge =>
          have hdiv : n / 10 < fuel := by
            have := Nat.div_lt_self (show 0 < n by omega) (show 1 < 10 by omega)
            omega
          rw [decValue_append_singleton, ih (n / 10) hdiv,
            digitVal_digitChar (Nat.mod_lt _ (by omega))]
          omega

theorem decValue_natDecimal (n : Nat) : decValue (natDecimal n) = n :=
  decValue_natDecimalCore (n + 1) n (by omega)

theorem natDecimal_injective : Function.Injective natDecimal := by
  intro a b h
  have ha := decValue_natDecimal a
  rw [h, decValue_natDecimal] at ha
  omega

theorem natDecimal_ne_nil (n : Nat) : natDecimal n ≠ [] := by
  show natDecimalCore (n + 1) n ≠ []
  rw [natDecimalCore]
  split
  · simp
  · simp

theorem lastDotSplit_append : ∀ (l : List Char) {b e : List Char},
    lastDotSplit l = some (b, e) → b ++ e = l := by
  intro l
  induction l with
  | nil => intro b e h; simp [lastDotSplit] at h
  | cons c cs ih =>
      intro b e h
      have hstep : lastDotSplit (c :: cs) =
          match lastDotSplit cs with
          | some (b, e) => some (c :: b, e)
          | none => if c = '.' then some ([], c :: cs) else none := rfl
      cases hcs : lastDotSplit cs with
      | some be =>
          obtain ⟨b', e'⟩ := be
          rw [hstep, hcs] at h
          simp only [Option.some.injEq, Prod.mk.injEq] at h
          obtain ⟨hb, he⟩ := h
          subst hb; subst he
          simpa using ih hcs
      | none =>
          rw [hstep, hcs] at h
          by_cases hc : c = '.'
          · rw [if_pos hc] at h
            simp only [Option.some.injEq, Prod.mk.injEq] at h
            obtain ⟨hb, he⟩ := h
            subst hb; subst he
            simp
          · rw [if_neg hc] at h
            exact absurd h (by simp)

/-- `splitext` never loses characters: base ++ ext is the original name. -/
theorem splitext_append (p : String) :
    (splitext p).1 ++ (splitext p).2 = p := by
  cases hs : lastDotSplit (p.data.dropWhile (fun c => c = '.')) with
  | some be =>
      obtain ⟨b, e⟩ := be
      have hbe := lastDotSplit_append _ hs
      apply String.ext
      simp only [splitext, hs, String.data_append]
      rw [List.append_assoc, hbe]
      exact List.takeWhile_append_dropWhile _ _
  | none => simp [splitext, hs]

theorem FS.read?_write_self (fs : FS) (p c : String) :
    (fs.write p c).read? p = some c := by
  simp [FS.write, FS.read?, List.find?_cons_of_pos]

theorem FS.read?_write_other (fs : FS) {p q : String} (c : String) (h : p ≠ q) :
    (fs.write p c).read? q = fs.read? q := by
  simp only [FS.write, FS.read?]
  rw [List.find?_cons_of_neg _ (by simpa using h)]

theorem FS.existsPath_write (fs : FS) (p c q : String) :
    (fs.write p c).existsPath q = ((p == q) || fs.existsPath q) := by
  simp [FS.write, FS.existsPath]

theorem versionedPath_inj {base ext : String} {i j : Nat}
    (h : versionedPath base ext i = versionedPath base ext j) : i = j := by
  apply natDecimal_injective
  have hd := congrArg String.data h
  simp only [versionedPath, String.data_append, List.append_assoc] at hd
  have h1 := List.append_cancel_left hd
  have h2 := List.append_cancel_left h1
  exact List.append_cancel_right h2

/-- A versioned sibling is never the base-plus-extension path itself: the
suffix `_v` plus at least one digit makes it strictly longer. -/
theorem versionedPath_ne_self {base ext : String} (i : Nat) :
    versionedPath base ext i ≠ base ++ ext := by
  intro h
  have hd := congrArg (fun s => s.data.length) h
  simp only [versionedPath, String.data_append, List.length_append] at hd
  have hne := natDecimal_ne_nil i
  have : 0 < (natDecimal i).length := List.length_pos.mpr hne
  have hv : ("_v" : String).data.length = 2 := rfl
  omega

/-- Whatever index the search returns is free, is at least the start index,
and every index between the start and it was occupied. -/
theorem findFreeIdx_spec (ex : String → Bool) (base ext : String) :
    ∀ (fuel i j : Nat), findFreeIdx ex base ext i fuel = some j →
      i ≤ j ∧ ex (versionedPath base ext j) = false ∧
      ∀ k, i ≤ k → k < j → ex (versionedPath base ext k) = true := by
  intro fuel
  induction fuel with
  | zero => intro i j h; simp [findFreeIdx] at h
  | succ fuel ih =>
      intro i j h
      rw [findFreeIdx] at h
      by_cases hex : ex (versionedPath base ext i) = true
      · rw [if_pos hex] at h
        obtain ⟨h1, h2, h3⟩ := ih (i + 1) j h
        refine ⟨by omega, h2, ?_⟩
        intro k hk1 hk2
        by_cases hki : k = i
        · subst hki; exact hex
        · exact h3 k (by omega) hk2
      · rw [if_neg hex] at h
        simp only [Option.some.injEq] at h
        subst h
        exact ⟨le_refl i, by simpa using hex, fun k hk1 hk2 => absurd (by omega : i ≤ k ∧ k < i) (by omega)⟩

/-- If the free index `j` is known, any fuel strictly larger than `j - i`
makes the search find exactly `j`. -/
theorem findFreeIdx_eq (ex : String → Bool) (base ext : String) {j : Nat}
    (hj : ex (versionedPath base ext j) = false) :
    ∀ (fuel i : Nat), i ≤ j → j < i + fuel →
      (∀ k, i ≤ k → k < j → ex (versionedPath base ext k) = true) →
      findFreeIdx ex base ext i fuel = some j := by
  intro fuel
  induction fuel with
  | zero => intro i h1 h2; omega
  | succ fuel ih =>
      intro i h1 h2 hall
      rw [findFreeIdx]
      by_cases hij : i = j
      · subst hij; rw [if_neg (by simp [hj])]
      · rw [if_pos (hall i (le_refl i) (by omega))]
        exact ih (i + 1) (by omega) (by omega) (fun k hk1 hk2 => hall k (by omega) hk2)

/-- If no versioned sibling at or beyond index `B` exists, the search from any
start terminates once given enough fuel. -/
theorem findFreeIdx_terminates (ex : String → Bool) (base ext : String) {B : Nat}
    (hB : ∀ k, B ≤ k → ex (versionedPath base ext k) = false) :
    ∀ (fuel i : Nat), 1 ≤ fuel → B < i + fuel →
      ∃ j, findFreeIdx ex base ext i fuel = some j := by
  intro fuel
  induction fuel with
  | zero => intro i h1 h2; omega
  | succ fuel ih =>
      intro i _ h2
      rw [findFreeIdx]
      by_cases hex : ex (versionedPath base ext i) = true
      · have hiB : i < B := by
          by_contra hge
          rw [hB i (by omega)] at hex
          exact Bool.false_ne_true hex
        rw [if_pos hex]
        exact ih (i + 1) (by omega) (by omega)
      · rw [if_neg hex]
        exact ⟨i, rfl⟩

/-! ### Claims C2, C9, C5, C4, C7 -/

/-- C2: a run that exceeds the timeout is reported with the distinguished
status `-1`, which differs from every exit code a script can itself produce
(a normal exit code is a `Nat`, on POSIX at most 255); a run that completes
within the timeout is reported with the process's real exit status. -/
theorem claim_C2_run_status :
    (∀ flushed, (run_script (.timedOut flushed)).1 = -1) ∧
    (∀ output exitCode, (run_script (.completed output exitCode)).1 = (exitCode : Int)) ∧
    (∀ exitCode : Nat, exitCode ≤ 255 → (-1 : Int) ≠ (exitCode : Int)) := by
  refine ⟨fun _ => rfl, fun _ _ => rfl, ?_⟩
  intro e _
  omega

theorem claim_C2_run_status_witness :
    (run_script (.timedOut "")).1 = -1 ∧
    (run_script (.completed "ok" 7)).1 = (7 : Int) ∧
    ((7 : Nat) ≤ 255 ∧ (-1 : Int) ≠ ((7 : Nat) : Int)) := by
  obtain ⟨h1, h2, h3⟩ := claim_C2_run_status
  exact ⟨h1 "", h2 "ok" 7, by decide, h3 7 (by decide)⟩

/-- C9: a launch failure is caught: `run_script` returns the failure status
`-1` and the exception text is what gets written to the log, and the Log
Inspector classifies that log as errored (its lowercasing contains
"error"). -/
theorem claim_C9_launch_failure (msg : String) :
    (run_script (.launchFailure msg)).1 = -1 ∧
    (run_script (.launchFailure msg)).2 = "Error running script: " ++ msg ∧
    monitor_log_for_errors (some ((run_script (.launchFailure msg)).2)) = true := by
  refine ⟨rfl, rfl, ?_⟩
  show monitor_log_for_errors (some ("Error running script: " ++ msg)) = true
  simp only [monitor_log_for_errors, containsSubstr, Bool.or_eq_true, decide_eq_true_eq]
  left
  have hdata : (lowerStr ("Error running script: " ++ msg)).data
      = "error".data ++ (" running script: ".data ++ msg.data.map Char.toLower) := by
    show ("Error running script: " ++ msg).data.map Char.toLower
        = "error".data ++ (" running script: ".data ++ msg.data.map Char.toLower)
    rw [String.data_append, List.map_append]
    rw [show "Error running script: ".data.map Char.toLower
        = "error".data ++ " running script: ".data from rfl]
    simp [List.append_assoc]
  rw [hdata]
  exact ⟨[], " running script: ".data ++ msg.data.map Char.toLower, by simp⟩

/-- C5: the Log Inspector returns true iff the log file exists and its
lowercased content contains the substring "error" or the substring
"traceback"; an absent file gives false. -/
theorem claim_C5_monitor_iff (log : Option String) :
    (monitor_log_for_errors log = true ↔
      ∃ content, log = some content ∧
        ("error".data <:+: (lowerStr content).data ∨
         "traceback".data <:+: (lowerStr content).data)) ∧
    monitor_log_for_errors none = false := by
  refine ⟨?_, rfl⟩
  cases log with
  | none => simp [monitor_log_for_errors]
  | some content =>
      simp [monitor_log_for_errors, containsSubstr, Bool.or_eq_true, decide_eq_true_eq]

/-- C4: the fence-stripping step maps the fenced example to "CODE" after the
final whitespace trim, passes any input with no leading or trailing fence
through unchanged, and handles the bare leading fence and the bare trailing
closing fence forms as well. -/
theorem claim_C4_strip_fences :
    (pyStrip (stripFences "```python\nCODE\n```") = "CODE") ∧
    (∀ s : String, pyStartsWith s "```python" = false → pyStartsWith s "```" = false →
      pyEndsWith s "```" = false → stripFences s = s) ∧
    (pyStrip (stripFences "```\nCODE\n```") = "CODE") ∧
    (pyStrip (stripFences "CODE\n```") = "CODE") := by
  refine ⟨by decide, ?_, by decide, by decide⟩
  intro s h1 h2 h3
  simp [stripFences, h1, h2, h3]

theorem claim_C4_strip_fences_witness :
    (pyStartsWith "print(1)" "```python" = false ∧ pyStartsWith "print(1)" "```" = false ∧
      pyEndsWith "print(1)" "```" = false) ∧
    stripFences "print(1)" = "print(1)" := by
  refine ⟨⟨by decide, by decide, by decide⟩, ?_⟩
  exact claim_C4_strip_fences.2.1 "print(1)" (by decide) (by decide) (by decide)

/-- C7: when the agent-framework path of the fix request fails, the direct
chat-completion call with model "gpt-4o" and temperature 0.1 is attempted
right after it — the calls made are exactly the agent run followed by the
direct call — and the fix step fails only if that direct call also failed
(its success is passed through, with the response stripped). -/
theorem claim_C7_fallback (cfg : FixConfig) (prompt e : String)
    (hA : cfg.agentsSuccess = true) (hN : cfg.agentHasName = true)
    (hfail : cfg.agentResult = .error e) :
    (getFixedCode cfg prompt).2 = [.agentRun, .directCompletion "gpt-4o" (1/10)] ∧
    (∀ e2, cfg.directResult = .error e2 → (getFixedCode cfg prompt).1 = .error e2) ∧
    (∀ c, cfg.directResult = .ok c → (getFixedCode cfg prompt).1 = .ok (pyStrip c)) := by
  simp only [getFixedCode, hA, hN, hfail, Bool.and_self, if_true]
  cases hd : cfg.directResult with
  | ok c => simp
  | error e2 => simp

theorem claim_C7_fallback_witness :
    (getFixedCode ⟨true, true, .error "boom", .ok " x "⟩ "p").2
      = [.agentRun, .directCompletion "gpt-4o" (1/10)] ∧
    (getFixedCode ⟨true, true, .error "boom", .ok " x "⟩ "p").1 = .ok "x" := by
  have h := claim_C7_fallback ⟨true, true, .error "boom", .ok " x "⟩ "p" "boom" rfl rfl rfl
  refine ⟨h.1, ?_⟩
  have h2 := h.2.2 " x " rfl
  rw [h2]
  rfl

/-! ### Claims C6, C8 -/

/-- C6: when the first run exits with status 0 and the Log Inspector finds no
marker in its log, the pipeline reports success and never enters the fix
path: the fix is not invoked, no backend call is made, no backup or fix
artifact is written, and no second run is attempted. -/
theorem claim_C6_clean_run (cfg : FixConfig) (first second : RunOutcome)
    (uploadContent : String) (fs0 : FS) (fuel : Nat)
    (hrc : (run_script first).1 = 0)
    (hlog : monitor_log_for_errors (some (run_script first).2) = false) :
    orchestrator cfg first second uploadContent fs0 fuel =
      some ⟨0, false, "", [], false, .success,
        (fs0.write "temp_uploaded_script.py" uploadContent).write "agent_log.txt"
          (run_script first).2⟩ := by
  simp only [orchestrator, FS.read?_write_self, hlog, hrc]
  simp

theorem claim_C6_clean_run_witness :
    orchestrator ⟨false, false, .error "", .error ""⟩ (.completed "all good" 0)
        (.completed "" 0) "print(1)" [] 0 =
      some ⟨0, false, "", [], false, .success,
        [("agent_log.txt", "all good"), ("temp_uploaded_script.py", "print(1)")]⟩ := by
  exact claim_C6_clean_run ⟨false, false, .error "", .error ""⟩ (.completed "all good" 0)
    (.completed "" 0) "print(1)" [] 0 rfl (by decide)

/-- C8: when the whole fix request fails (the fallback included),
`fix_broken_script` returns the empty path with the failure reported instead
of propagating, and the pipeline stops at `fixGenerationFailed` without
attempting a second run. -/
theorem claim_C8_fix_failure_stops (cfg : FixConfig) (first second : RunOutcome)
    (uploadContent : String) (fs0 : FS) (fuel : Nat) (e : String)
    (hfail : ∀ prompt, (getFixedCode cfg prompt).1 = .error e)
    (hbad : monitor_log_for_errors (some (run_script first).2) = true) :
    fix_broken_script cfg
        ((fs0.write "temp_uploaded_script.py" uploadContent).write "agent_log.txt"
          (run_script first).2)
        "temp_uploaded_script.py" (run_script first).2 fuel
      = some ("",
          (fs0.write "temp_uploaded_script.py" uploadContent).write "agent_log.txt"
            (run_script first).2,
          (getFixedCode cfg (buildPrompt uploadContent (run_script first).2)).2, true) ∧
    orchestrator cfg first second uploadContent fs0 fuel =
      some ⟨(run_script first).1, true, "",
        (getFixedCode cfg (buildPrompt uploadContent (run_script first).2)).2,
        false, .fixGenerationFailed,
        (fs0.write "temp_uploaded_script.py" uploadContent).write "agent_log.txt"
          (run_script first).2⟩ := by
  have hscriptread : (((fs0.write "temp_uploaded_script.py" uploadContent).write
      "agent_log.txt" (run_script first).2)).read? "temp_uploaded_script.py"
      = some uploadContent := by
    rw [FS.read?_write_other _ _ (by decide), FS.read?_write_self]
  have hfix : fix_broken_script cfg
      ((fs0.write "temp_uploaded_script.py" uploadContent).write "agent_log.txt"
        (run_script first).2)
      "temp_uploaded_script.py" (run_script first).2 fuel
      = some ("",
          (fs0.write "temp_uploaded_script.py" uploadContent).write "agent_log.txt"
            (run_script first).2,
          (getFixedCode cfg (buildPrompt uploadContent (run_script first).2)).2, true) := by
    simp only [fix_broken_script, hscriptread]
    cases hg : getFixedCode cfg (buildPrompt uploadContent (run_script first).2) with
    | mk res calls =>
        cases res with
        | ok c =>
            exfalso
            have hf := hfail (buildPrompt uploadContent (run_script first).2)
            rw [hg] at hf
            simp at hf
        | error e2 => simp
  refine ⟨hfix, ?_⟩
  simp only [orchestrator, FS.read?_write_self, hbad]
  simp only [Bool.not_true, Bool.and_false, Bool.false_eq_true, if_false, Option.getD_some]
  rw [hfix]
  simp

theorem claim_C8_fix_failure_stops_witness :
    fix_broken_script ⟨true, true, .error "agent down", .error "api down"⟩
        [("agent_log.txt", "Traceback: boom"), ("temp_uploaded_script.py", "x = ")]
        "temp_uploaded_script.py" "Traceback: boom" 3
      = some ("", [("agent_log.txt", "Traceback: boom"), ("temp_uploaded_script.py", "x = ")],
          [.agentRun, .directCompletion "gpt-4o" (1/10)], true) ∧
    orchestrator ⟨true, true, .error "agent down", .error "api down"⟩
        (.completed "Traceback: boom" 1) (.completed "" 0) "x = " [] 3
      = some ⟨1, true, "", [.agentRun, .directCompletion "gpt-4o" (1/10)], false,
          .fixGenerationFailed,
          [("agent_log.txt", "Traceback: boom"), ("temp_uploaded_script.py", "x = ")]⟩ := by
  have h := claim_C8_fix_failure_stops ⟨true, true, .error "agent down", .error "api down"⟩
    (.completed "Traceback: boom" 1) (.completed "" 0) "x = " [] 3 "api down"
    (fun _ => rfl) (by decide)
  exact ⟨h.1, h.2⟩

/-! ### Claim C1 -/

/-- C1 as stated is false on the code: in this concrete fix run the backup is
copied to the first free versioned path `_v2`, and the fixed code is then
written to that same `_v2` path — not to a further distinct versioned path —
so the versioned artifact ends up holding the fixed code rather than the
original's bytes, and no `_v3` artifact exists. -/
theorem claim_C1_counterexample :
    fix_broken_script ⟨false, false, .error "unused", .ok "fixed code"⟩
        [("temp_uploaded_script.py", "original code")]
        "temp_uploaded_script.py" "SyntaxError: log" 5
      = some ("temp_uploaded_script_v2.py",
          [("temp_uploaded_script_v2.py", "fixed code"),
           ("temp_uploaded_script_v2.py", "original code"),
           ("temp_uploaded_script.py", "original code")],
          [.directCompletion "gpt-4o" (1/10)], false) ∧
    FS.read? [("temp_uploaded_script_v2.py", "fixed code"),
           ("temp_uploaded_script_v2.py", "original code"),
           ("temp_uploaded_script.py", "original code")] "temp_uploaded_script_v2.py"
      = some "fixed code" ∧
    FS.existsPath [("temp_uploaded_script_v2.py", "fixed code"),
           ("temp_uploaded_script_v2.py", "original code"),
           ("temp_uploaded_script.py", "original code")] "temp_uploaded_script_v3.py"
      = false := by
  refine ⟨rfl, rfl, rfl⟩

/-! ### Claims C10 and C3 -/

theorem versionedPath_beq_false {base ext : String} {i j : Nat} (h : i ≠ j) :
    (versionedPath base ext i == versionedPath base ext j) = false := by
  rw [beq_eq_false_iff_ne]
  intro he
  exact h (versionedPath_inj he)

/-- C10: under the precondition that only finitely many versioned siblings
exist (none at or beyond some bound `B`), the unbounded search loop of
`backup_and_version_script` terminates: some fuel makes it return, and what
it returns is the least free index `N ≥ 2`. -/
theorem claim_C10_search_terminates (ex : String → Bool) (base ext : String) (B : Nat)
    (hB : ∀ k, B ≤ k → ex (versionedPath base ext k) = false) :
    ∃ fuel j, findFreeIdx ex base ext 2 fuel = some j ∧ 2 ≤ j ∧
      ex (versionedPath base ext j) = false ∧
      ∀ k, 2 ≤ k → k < j → ex (versionedPath base ext k) = true := by
  obtain ⟨j, hj⟩ := findFreeIdx_terminates ex base ext hB (B + 1) 2 (by omega) (by omega)
  obtain ⟨h1, h2, h3⟩ := findFreeIdx_spec ex base ext (B + 1) 2 j hj
  exact ⟨B + 1, j, hj, h1, h2, h3⟩

theorem claim_C10_search_terminates_witness :
    (∀ k, 0 ≤ k → (fun _ : String => false) (versionedPath "script" ".py" k) = false) ∧
    ∃ fuel j, findFreeIdx (fun _ => false) "script" ".py" 2 fuel = some j ∧ 2 ≤ j ∧
      (fun _ : String => false) (versionedPath "script" ".py" j) = false ∧
      ∀ k, 2 ≤ k → k < j →
        (fun _ : String => false) (versionedPath "script" ".py" k) = true :=
  ⟨fun _ _ => rfl,
    claim_C10_search_terminates (fun _ => false) "script" ".py" 0 (fun _ _ => rfl)⟩

/-- Starting from a state whose versioned siblings are exactly the indices
`2, ..., m + 1`, iterated backups produce the paths `_v(m+2), _v(m+3), ...`
in order. -/
theorem backupSeq_fresh (base ext sp : String) (hsp : splitext sp = (base, ext)) :
    ∀ (n : Nat) (fs : FS) (m : Nat),
      m ≤ fs.length →
      (∀ k, 2 ≤ k → (fs.existsPath (versionedPath base ext k) = true ↔ k < m + 2)) →
      backupSeq sp n fs
        = (List.range n).map (fun j => versionedPath base ext (j + m + 2)) := by
  intro n
  induction n with
  | zero => intro fs m _ _; simp [backupSeq]
  | succ n ih =>
      intro fs m hm hinv
      have hfree : fs.existsPath (versionedPath base ext (m + 2)) = false := by
        cases hx : fs.existsPath (versionedPath base ext (m + 2))
        · rfl
        · exfalso
          have := (hinv (m + 2) (by omega)).mp hx
          omega
      have hfind : findFreeIdx fs.existsPath base ext 2 (fs.length + 1) = some (m + 2) :=
        findFreeIdx_eq fs.existsPath base ext hfree (fs.length + 1) 2 (by omega) (by omega)
          (fun k hk1 hk2 => (hinv k hk1).mpr (by omega))
      have hback : backup_and_version_script fs sp (fs.length + 1)
          = some (versionedPath base ext (m + 2),
              fs.write (versionedPath base ext (m + 2)) ((fs.read? sp).getD "")) := by
        simp only [backup_and_version_script, hsp]
        rw [hfind]
      rw [backupSeq, hback]
      show versionedPath base ext (m + 2) ::
          backupSeq sp n (fs.write (versionedPath base ext (m + 2)) ((fs.read? sp).getD ""))
        = List.map (fun j => versionedPath base ext (j + m + 2)) (List.range (n + 1))
      have hm' : m + 1 ≤ (fs.write (versionedPath base ext (m + 2))
          ((fs.read? sp).getD "")).length := by
        simp only [FS.write, List.length_cons]
        omega
      have hinv' : ∀ k, 2 ≤ k →
          ((fs.write (versionedPath base ext (m + 2))
            ((fs.read? sp).getD "")).existsPath (versionedPath base ext k) = true
            ↔ k < (m + 1) + 2) := by
        intro k hk
        rw [FS.existsPath_write]
        by_cases hkm : k = m + 2
        · subst hkm
          simp only [beq_self_eq_true, Bool.true_or]
          constructor
          · intro _; omega
          · intro _; trivial
        · rw [versionedPath_beq_false (fun he => hkm he.symm)]
          simp only [Bool.false_or]
          rw [hinv k hk]
          constructor <;> omega
      rw [ih _ (m + 1) hm' hinv']
      rw [List.range_succ_eq_map, List.map_cons, List.map_map]
      congr 1
      · congr 1
        omega
      · apply List.map_congr_left
        intro j _
        simp only [Function.comp]
        congr 1
        omega

/-- C3: one call of `backup_and_version_script` returns the versioned
sibling with the least unused index `N ≥ 2` — a path that did not exist at
call time, to which the original's bytes are copied — and repeated calls
starting from a state with no versioned siblings produce exactly the
strictly increasing gap-free sequence `_v2, _v3, ...`. -/
theorem claim_C3_backup_versioning (base ext sp : String)
    (hsp : splitext sp = (base, ext)) :
    (∀ (fs : FS) (fuel i : Nat),
      findFreeIdx fs.existsPath base ext 2 fuel = some i →
        backup_and_version_script fs sp fuel
          = some (versionedPath base ext i,
              fs.write (versionedPath base ext i) ((fs.read? sp).getD "")) ∧
        2 ≤ i ∧
        fs.existsPath (versionedPath base ext i) = false ∧
        (∀ k, 2 ≤ k → k < i → fs.existsPath (versionedPath base ext k) = true)) ∧
    (∀ (fs : FS) (n : Nat),
      (∀ k, 2 ≤ k → fs.existsPath (versionedPath base ext k) = false) →
      backupSeq sp n fs = (List.range n).map (fun j => versionedPath base ext (j + 2))) := by
  constructor
  · intro fs fuel i hfind
    obtain ⟨h1, h2, h3⟩ := findFreeIdx_spec fs.existsPath base ext fuel 2 i hfind
    refine ⟨?_, h1, h2, h3⟩
    simp only [backup_and_version_script, hsp]
    rw [hfind]
  · intro fs n hempty
    have h := backupSeq_fresh base ext sp hsp n fs 0 (by omega) ?_
    · exact h
    · intro k hk
      rw [hempty k hk]
      constructor
      · intro hx; exact absurd hx (by simp)
      · intro hx; omega

theorem claim_C3_backup_versioning_witness :
    splitext "temp_uploaded_script.py" = ("temp_uploaded_script", ".py") ∧
    backupSeq "temp_uploaded_script.py" 3 [("temp_uploaded_script.py", "code")]
      = ["temp_uploaded_script_v2.py", "temp_uploaded_script_v3.py",
         "temp_uploaded_script_v4.py"] := by
  have h := claim_C3_backup_versioning "temp_uploaded_script" ".py"
    "temp_uploaded_script.py" rfl
  refine ⟨rfl, ?_⟩
  have hempty : ∀ k, 2 ≤ k →
      FS.existsPath [("temp_uploaded_script.py", "code")]
        (versionedPath "temp_uploaded_script" ".py" k) = false := by
    intro k _
    have hne := @versionedPath_ne_self "temp_uploaded_script" ".py" k
    have hne2 : versionedPath "temp_uploaded_script" ".py" k ≠ "temp_uploaded_script.py" := hne
    have hne3 : ¬("temp_uploaded_script.py" = versionedPath "temp_uploaded_script" ".py" k) :=
      fun he => hne2 he.symm
    simp [FS.existsPath, hne3]
  rw [h.2 [("temp_uploaded_script.py", "code")] 3 hempty]
  rfl

/-- C1 amended: the backup copy of the original is created at the first free
versioned path (least free index `i ≥ 2`), and the fixed code is then written
to that very same path, overwriting the backup copy.  The original script at
its own path is untouched, the versioned path ends up holding the cleaned
fixed code, and no other versioned sibling is created: each fix produces
exactly one new versioned artifact, which holds the fix, not the original's
bytes. -/
theorem claim_C1_amended (cfg : FixConfig) (fs : FS) (sp err orig raw : String)
    (fuel i : Nat)
    (hread : fs.read? sp = some orig)
    (hok : (getFixedCode cfg (buildPrompt orig err)).1 = Except.ok raw)
    (hfind : findFreeIdx fs.existsPath (splitext sp).1 (splitext sp).2 2 fuel = some i) :
    backup_and_version_script fs sp fuel
      = some (versionedPath (splitext sp).1 (splitext sp).2 i,
          fs.write (versionedPath (splitext sp).1 (splitext sp).2 i) orig) ∧
    fix_broken_script cfg fs sp err fuel
      = some (versionedPath (splitext sp).1 (splitext sp).2 i,
          (fs.write (versionedPath (splitext sp).1 (splitext sp).2 i) orig).write
            (versionedPath (splitext sp).1 (splitext sp).2 i) (pyStrip (stripFences raw)),
          (getFixedCode cfg (buildPrompt orig err)).2, false) ∧
    ((fs.write (versionedPath (splitext sp).1 (splitext sp).2 i) orig).write
        (versionedPath (splitext sp).1 (splitext sp).2 i)
        (pyStrip (stripFences raw))).read? sp = some orig ∧
    ((fs.write (versionedPath (splitext sp).1 (splitext sp).2 i) orig).write
        (versionedPath (splitext sp).1 (splitext sp).2 i)
        (pyStrip (stripFences raw))).read?
      (versionedPath (splitext sp).1 (splitext sp).2 i) = some (pyStrip (stripFences raw)) ∧
    (∀ k, k ≠ i →
      ((fs.write (versionedPath (splitext sp).1 (splitext sp).2 i) orig).write
          (versionedPath (splitext sp).1 (splitext sp).2 i)
          (pyStrip (stripFences raw))).existsPath
          (versionedPath (splitext sp).1 (splitext sp).2 k)
        = fs.existsPath (versionedPath (splitext sp).1 (splitext sp).2 k)) := by
  have hne : versionedPath (splitext sp).1 (splitext sp).2 i ≠ sp := by
    have h1 := @versionedPath_ne_self (splitext sp).1 (splitext sp).2 i
    rw [splitext_append] at h1
    exact h1
  have hback : backup_and_version_script fs sp fuel
      = some (versionedPath (splitext sp).1 (splitext sp).2 i,
          fs.write (versionedPath (splitext sp).1 (splitext sp).2 i) orig) := by
    simp only [backup_and_version_script]
    rw [hfind, hread]
    rfl
  have hfix : fix_broken_script cfg fs sp err fuel
      = some (versionedPath (splitext sp).1 (splitext sp).2 i,
          (fs.write (versionedPath (splitext sp).1 (splitext sp).2 i) orig).write
            (versionedPath (splitext sp).1 (splitext sp).2 i) (pyStrip (stripFences raw)),
          (getFixedCode cfg (buildPrompt orig err)).2, false) := by
    simp only [fix_broken_script, hread]
    cases hg : getFixedCode cfg (buildPrompt orig err) with
    | mk res calls =>
        cases res with
        | error e2 =>
            exfalso
            rw [hg] at hok
            simp at hok
        | ok raw2 =>
            have hraw : raw2 = raw := by
              rw [hg] at hok
              simpa using hok
            subst hraw
            rw [hback]
  refine ⟨hback, hfix, ?_, FS.read?_write_self _ _ _, ?_⟩
  · rw [FS.read?_write_other _ _ hne, FS.read?_write_other _ _ hne, hread]
  · intro k hk
    rw [FS.existsPath_write, FS.existsPath_write,
      versionedPath_beq_false (fun he => hk he.symm)]
    simp

theorem claim_C1_amended_witness :
    fix_broken_script ⟨false, false, .error "u", .ok "y=2"⟩
        [("temp_uploaded_script.py", "y=")] "temp_uploaded_script.py" "log" 5
      = some ("temp_uploaded_script_v2.py",
          [("temp_uploaded_script_v2.py", "y=2"),
           ("temp_uploaded_script_v2.py", "y="),
           ("temp_uploaded_script.py", "y=")],
          [.directCompletion "gpt-4o" (1/10)], false) ∧
    FS.read? [("temp_uploaded_script_v2.py", "y=2"),
           ("temp_uploaded_script_v2.py", "y="),
           ("temp_uploaded_script.py", "y=")] "temp_uploaded_script.py" = some "y=" := by
  have h := claim_C1_amended ⟨false, false, .error "u", .ok "y=2"⟩
    [("temp_uploaded_script.py", "y=")] "temp_uploaded_script.py" "log" "y=" "y=2" 5 2
    rfl rfl rfl
  exact ⟨h.2.1, h.2.2.1⟩

theorem claim_C5_monitor_iff_witness :
    monitor_log_for_errors (some "An ERROR occurred") = true ∧
    monitor_log_for_errors none = false := by
  have h := claim_C5_monitor_iff (some "An ERROR occurred")
  exact ⟨h.1.mpr ⟨"An ERROR occurred", rfl, Or.inl (by decide)⟩, h.2⟩

theorem claim_C9_launch_failure_witness :
    (run_script (.launchFailure "No such file or directory")).1 = -1 ∧
    (run_script (.launchFailure "No such file or directory")).2
      = "Error running script: " ++ "No such file or directory" ∧
    monitor_log_for_errors
      (some ((run_script (.launchFailure "No such file or directory")).2)) = true :=
  claim_C9_launch_failure "No such file or directory"
